import Mathlib

/-!
Verification development for the market-data fetch script
(`scripts/fetch_data.py`).  The script ingests observations from three
sources (BLS labor statistics, a metals spot-price API, FRED macro
series) and reconciles each observation into a `market_data` table keyed
by `(data_type, date)`.

The embedding below models:
* the value-string parsing done by Python's `float(...)` on the plain
  decimal strings these sources emit (optional sign, digits, decimal
  point; scientific notation and inf/nan are not emitted by the sources
  and are not modelled), with exact rational arithmetic standing in for
  the fixed-precision decimals,
* the `market_data` store as a list of rows plus a fresh-id counter,
  with `select ... eq(data_type).eq(date)`, `insert` and
  `update ... eq(id)` mirrored as pure functions,
* each per-observation loop body of `update_or_insert_bls`,
  `update_metal_price` and `update_or_insert_fred` as a step function
  that returns the new store, the list of store operations issued
  (reads and writes), and an outcome tag,
* the `__main__` run sequencing the four sources, where an uncaught
  Python exception is modelled as an aborting result.

Dates are kept as the strings the script builds (`"YYYY-MM-DD"`).
-/

/-- Python `str.strip()`: remove leading and trailing whitespace. -/
def pyStrip (s : String) : String :=
  ⟨((s.data.dropWhile Char.isWhitespace).reverse.dropWhile Char.isWhitespace).reverse⟩

/-- `point['period'][1:] if point['period'].startswith('M') else '01'`
(fetch_data.py line 115). -/
def monthOf (period : String) : String :=
  match period.data with
  | 'M' :: rest => ⟨rest⟩
  | _ => "01"

/-- `timestamp.split('T')[0]` (fetch_data.py line 164): the prefix of the
timestamp before the first `T` (the whole string when no `T` occurs). -/
def metalDate (timestamp : String) : String :=
  ⟨timestamp.data.takeWhile (fun c => c != 'T')⟩

/-- Value of a digit string, most significant first. -/
def digitsVal (l : List Char) : Nat :=
  l.foldl (fun acc c => acc * 10 + (c.toNat - 48)) 0

/-- Unsigned decimal literal: `digits`, `digits.`, `digits.digits` or
`.digits`; anything else is a parse failure. -/
def parseUnsigned (l : List Char) : Option ℚ :=
  match l.span Char.isDigit with
  | (ip, rest) =>
    match rest with
    | [] => if ip.isEmpty then none else some (digitsVal ip)
    | '.' :: fp =>
      if (ip.isEmpty && fp.isEmpty) || !(fp.all Char.isDigit) then none
      else some ((digitsVal ip : ℚ) + (digitsVal fp : ℚ) / (10 : ℚ) ^ fp.length)
    | _ => none

/-- Python `float(s)` on the numeric strings the sources emit: strip
whitespace, optional sign, plain decimal literal.  `none` models the
`ValueError` raised on a non-numeric string (including the FRED
sentinel `"."` and the empty string). -/
def parseFloat (s : String) : Option ℚ :=
  match (pyStrip s).data with
  | '-' :: r => (parseUnsigned r).map (fun q => -q)
  | '+' :: r => parseUnsigned r
  | r => parseUnsigned r

/-- One BLS data point: `{'year': ..., 'period': ..., 'value': ...}`.
A missing `value` key (falsy in `point.get('value')`) is modelled as the
empty string. -/
structure RawBLSPoint where
  year : String
  period : String
  value : String
deriving DecidableEq, Repr

/-- One FRED observation: `{'date': 'YYYY-MM-DD', 'value': ...}`. -/
structure RawFredObs where
  date : String
  value : String
deriving DecidableEq, Repr

/-- The nested `rate` object of a metals API response. -/
structure MetalRate where
  price : ℚ
  high : ℚ
  low : ℚ
deriving DecidableEq, Repr

/-- A successfully decoded metals API payload: the fields
`update_metal_price` reads (`rate`, `timestamp`). -/
structure MetalData where
  rate : MetalRate
  timestamp : String
deriving DecidableEq, Repr

/-- The source record stored in the row's `raw_data` column. -/
inductive RawData where
  | bls (p : RawBLSPoint)
  | fred (o : RawFredObs)
  | metal (m : MetalData)
deriving DecidableEq, Repr

/-- One row of the `market_data` table. -/
structure StoredRecord where
  id : Nat
  data_type : String
  date : String
  average : ℚ
  high : ℚ
  low : ℚ
  raw_data : RawData
deriving DecidableEq, Repr

/-- The `market_data` table: rows in insertion order plus the next id the
store will assign. -/
structure Store where
  rows : List StoredRecord
  nextId : Nat
deriving DecidableEq, Repr

def emptyStore : Store := ⟨[], 0⟩

/-- `supabase.table('market_data').select("*").eq('data_type', dt).eq('date', d)`:
the rows matching both key columns, in row order (`existing.data`). -/
def selectByKey (st : Store) (dt d : String) : List StoredRecord :=
  st.rows.filter (fun r => r.data_type == dt && r.date == d)

/-- `supabase.table('market_data').insert({...})`: append a fresh row. -/
def insertRow (st : Store) (dt d : String) (avg hi lo : ℚ) (raw : RawData) : Store :=
  ⟨st.rows ++ [⟨st.nextId, dt, d, avg, hi, lo, raw⟩], st.nextId + 1⟩

/-- `supabase.table('market_data').update({'average': ..., 'high': ...,
'low': ..., 'raw_data': ...}).eq('id', i)`: rewrite exactly those four
columns of every row whose id matches. -/
def updateRow (st : Store) (i : Nat) (avg hi lo : ℚ) (raw : RawData) : Store :=
  ⟨st.rows.map (fun r =>
      if r.id = i then { r with average := avg, high := hi, low := lo, raw_data := raw } else r),
   st.nextId⟩

/-- A store operation issued against the gateway. -/
inductive StoreOp where
  | read (dt d : String)
  | insertOp (dt d : String) (avg hi lo : ℚ) (raw : RawData)
  | updateOp (i : Nat) (avg hi lo : ℚ) (raw : RawData)
deriving DecidableEq, Repr

/-- Whether a store operation writes (insert or update, not a read). -/
def StoreOp.isWrite : StoreOp → Bool
  | .read _ _ => false
  | .insertOp _ _ _ _ _ _ => true
  | .updateOp _ _ _ _ _ => true

/-- Outcome of processing one observation. -/
inductive Outcome where
  | skipped
  | invalid
  | parseError
  | inserted
  | updated
  | unchanged
deriving DecidableEq, Repr

/-- Result of one loop-body iteration: the store afterwards, the store
operations issued, and the outcome. -/
structure StepResult where
  store : Store
  events : List StoreOp
  outcome : Outcome
deriving DecidableEq, Repr

/-- `f"{point['year']}-{month}-01"` (fetch_data.py line 116). -/
def blsDate (p : RawBLSPoint) : String :=
  p.year ++ "-" ++ monthOf p.period ++ "-01"

/-- Loop body of `update_or_insert_bls` (fetch_data.py lines 109-147):
skip blank values before any store call; read the existing rows for the
key; `float(point['value'])` with no exception handler (a parse failure
is an uncaught ValueError, outcome `parseError`); update when the first
existing row's average differs, do nothing when equal, insert when no
row exists. -/
def blsStep (data_type : String) (st : Store) (p : RawBLSPoint) : StepResult :=
  if p.value = "" ∨ pyStrip p.value = "" then
    ⟨st, [], .skipped⟩
  else
    let d := blsDate p
    match parseFloat p.value with
    | none => ⟨st, [.read data_type d], .parseError⟩
    | some v =>
      match selectByKey st data_type d with
      | e :: _ =>
        if e.average ≠ v then
          ⟨updateRow st e.id v v v (.bls p),
           [.read data_type d, .updateOp e.id v v v (.bls p)], .updated⟩
        else ⟨st, [.read data_type d], .unchanged⟩
      | [] =>
        ⟨insertRow st data_type d v v v (.bls p),
         [.read data_type d, .insertOp data_type d v v v (.bls p)], .inserted⟩

/-- Loop body of `update_or_insert_fred` (fetch_data.py lines 202-242):
skip the empty string and the sentinel `"."` before any store call; read
the existing rows; `float(...)` inside `try/except ValueError` (a parse
failure only skips this observation, outcome `invalid`); then the same
update / no-op / insert logic as BLS. -/
def fredStep (data_type : String) (st : Store) (o : RawFredObs) : StepResult :=
  if o.value = "" ∨ o.value = "." then
    ⟨st, [], .skipped⟩
  else
    let d := o.date
    match parseFloat o.value with
    | none => ⟨st, [.read data_type d], .invalid⟩
    | some v =>
      match selectByKey st data_type d with
      | e :: _ =>
        if e.average ≠ v then
          ⟨updateRow st e.id v v v (.fred o),
           [.read data_type d, .updateOp e.id v v v (.fred o)], .updated⟩
        else ⟨st, [.read data_type d], .unchanged⟩
      | [] =>
        ⟨insertRow st data_type d v v v (.fred o),
         [.read data_type d, .insertOp data_type d v v v (.fred o)], .inserted⟩

/-- Result of a whole per-source loop: final store, all store operations
in order, the `(date, outcome)` of every observation that reached the
reconciliation logic (i.e. was not filtered out before any store call),
and whether the loop was aborted by an uncaught exception. -/
structure LoopResult where
  store : Store
  events : List StoreOp
  processed : List (String × Outcome)
  aborted : Bool
deriving DecidableEq, Repr

/-- The `for point in series_data` loop of `update_or_insert_bls`: a
parse failure raises out of the loop, so the remaining points are not
processed and the loop aborts. -/
def blsLoop (data_type : String) (st : Store) : List RawBLSPoint → LoopResult
  | [] => ⟨st, [], [], false⟩
  | p :: ps =>
    let s := blsStep data_type st p
    match s.outcome with
    | .skipped =>
      let r := blsLoop data_type s.store ps
      ⟨r.store, s.events ++ r.events, r.processed, r.aborted⟩
    | .parseError => ⟨s.store, s.events, [(blsDate p, .parseError)], true⟩
    | o =>
      let r := blsLoop data_type s.store ps
      ⟨r.store, s.events ++ r.events, (blsDate p, o) :: r.processed, r.aborted⟩

/-- The `for observation in series_data` loop of `update_or_insert_fred`:
every outcome, including a parse failure, continues with the next
observation. -/
def fredLoop (data_type : String) (st : Store) : List RawFredObs → LoopResult
  | [] => ⟨st, [], [], false⟩
  | o :: os =>
    let s := fredStep data_type st o
    match s.outcome with
    | .skipped =>
      let r := fredLoop data_type s.store os
      ⟨r.store, s.events ++ r.events, r.processed, r.aborted⟩
    | out =>
      let r := fredLoop data_type s.store os
      ⟨r.store, s.events ++ r.events, (o.date, out) :: r.processed, r.aborted⟩

/-- `update_or_insert_bls(data_type, series_data)`: `None` or an empty
list returns immediately, otherwise run the loop. -/
def update_or_insert_bls (data_type : String) (st : Store) :
    Option (List RawBLSPoint) → LoopResult
  | none => ⟨st, [], [], false⟩
  | some [] => ⟨st, [], [], false⟩
  | some series_data => blsLoop data_type st series_data

/-- `update_or_insert_fred(data_type, series_data)`. -/
def update_or_insert_fred (data_type : String) (st : Store) :
    Option (List RawFredObs) → LoopResult
  | none => ⟨st, [], [], false⟩
  | some [] => ⟨st, [], [], false⟩
  | some series_data => fredLoop data_type st series_data

/-- `update_metal_price(metal, metal_data)` (fetch_data.py lines
154-190): `None` returns immediately; otherwise read the existing rows
for `(metal, date-part-of-timestamp)` and unconditionally update the
first one when present — there is no value comparison — or insert when
absent. -/
def update_metal_price (metal : String) (st : Store) :
    Option MetalData → StepResult
  | none => ⟨st, [], .skipped⟩
  | some md =>
    let d := metalDate md.timestamp
    match selectByKey st metal d with
    | e :: _ =>
      ⟨updateRow st e.id md.rate.price md.rate.high md.rate.low (.metal md),
       [.read metal d, .updateOp e.id md.rate.price md.rate.high md.rate.low (.metal md)],
       .updated⟩
    | [] =>
      ⟨insertRow st metal d md.rate.price md.rate.high md.rate.low (.metal md),
       [.read metal d, .insertOp metal d md.rate.price md.rate.high md.rate.low (.metal md)],
       .inserted⟩

/-- A decoded BLS API response, as far as `fetch_latest_bls` inspects it:
`success` carries `Results.series[0].data`; `failure` is a payload whose
`status` field is present but not `REQUEST_SUCCEEDED`; `malformed` is a
payload missing an expected field (`status`, `Results`, ...), on which
the unguarded dictionary accesses raise an uncaught KeyError. -/
inductive BLSPayload where
  | success (data : List RawBLSPoint)
  | failure
  | malformed
deriving DecidableEq, Repr

/-- A decoded metals API response: `success` carries the `rate` and
`timestamp` fields `update_metal_price` reads; `failure` is a payload
whose `status` is not `success`; `malformed` is a response on which
decoding raises inside the `try` block. -/
inductive MetalPayload where
  | success (md : MetalData)
  | failure
  | malformed
deriving DecidableEq, Repr

/-- A decoded FRED API response: `success` carries `observations`;
`failure` is a payload with an `error_code`; `malformed` is a response
on which decoding raises inside the `try` block. -/
inductive FredPayload where
  | success (data : List RawFredObs)
  | failure
  | malformed
deriving DecidableEq, Repr

/-- `fetch_latest_bls` (fetch_data.py lines 13-36): no `try/except`, so a
malformed payload raises out of the function (`Except.error`); a
non-success status returns `None`; otherwise the data list is returned. -/
def fetch_latest_bls : BLSPayload → Except Unit (Option (List RawBLSPoint))
  | .success d => .ok (some d)
  | .failure => .ok none
  | .malformed => .error ()

/-- `fetch_metal_price` (fetch_data.py lines 38-64): a missing API key
(`none` argument) returns `None`; the body runs inside `try/except`, so
both a non-success status and a decoding error return `None`. -/
def fetch_metal_price : Option MetalPayload → Option MetalData
  | none => none
  | some (.success md) => some md
  | some .failure => none
  | some .malformed => none

/-- `fetch_fred_series` (fetch_data.py lines 66-97): a missing API key
returns `None`; the body runs inside `try/except`, so an error payload
and a decoding error both return `None`. -/
def fetch_fred_series : Option FredPayload → Option (List RawFredObs)
  | none => none
  | some (.success d) => some d
  | some .failure => none
  | some .malformed => none

/-- The decoded responses one run works from (a `none` metal or FRED
payload models a missing API key). -/
structure RunInput where
  bls : BLSPayload
  gold : Option MetalPayload
  silver : Option MetalPayload
  fred : Option FredPayload
deriving DecidableEq, Repr

/-- The BLS leg of `__main__`:
`update_or_insert_bls("cpi", fetch_latest_bls("CUUR0000SA0"))`, with an
uncaught exception from the fetch surfacing as an aborted result. -/
def runBLS (p : BLSPayload) (st : Store) : LoopResult :=
  match fetch_latest_bls p with
  | .error _ => ⟨st, [], [], true⟩
  | .ok d => update_or_insert_bls "cpi" st d

/-- One metal leg of `__main__`:
`update_metal_price(metal, fetch_metal_price(metal))`. -/
def runMetal (metal : String) (p : Option MetalPayload) (st : Store) : StepResult :=
  update_metal_price metal st (fetch_metal_price p)

/-- The FRED leg of `__main__`:
`update_or_insert_fred("milk_price", fetch_fred_series(...))`. -/
def runFred (p : Option FredPayload) (st : Store) : LoopResult :=
  update_or_insert_fred "milk_price" st (fetch_fred_series p)

/-- The gold, silver and FRED legs of `__main__`, in order. -/
def runRest (g s : Option MetalPayload) (f : Option FredPayload) (st : Store) :
    Store × List StoreOp :=
  let rg := runMetal "gold" g st
  let rs := runMetal "silver" s rg.store
  let rf := runFred f rs.store
  (rf.store, rg.events ++ rs.events ++ rf.events)

/-- `__main__` (fetch_data.py lines 249-265): BLS, then gold, silver and
FRED in sequence.  There is no exception handler at this level, so an
uncaught exception in the BLS leg (a malformed BLS payload, or a BLS
value-parse ValueError) aborts the whole run before the other sources
are touched; the final component records whether that happened. -/
def mainRun (inp : RunInput) (st : Store) : Store × List StoreOp × Bool :=
  let rb := runBLS inp.bls st
  if rb.aborted then (rb.store, rb.events, true)
  else
    let rest := runRest inp.gold inp.silver inp.fred rb.store
    (rest.1, rb.events ++ rest.2, false)

/-- The per-row identity-and-key view an update must not touch. -/
def rowKey (r : StoredRecord) : Nat × String × String := (r.id, r.data_type, r.date)

/-! ### Concrete fixtures reused in witnesses and counterexamples -/

def cpiPoint : RawBLSPoint := ⟨"2024", "M05", "310"⟩

def cpiRow : StoredRecord := ⟨0, "cpi", "2024-05-01", 310, 310, 310, .bls cpiPoint⟩

def cpiStore : Store := ⟨[cpiRow], 1⟩

def milkObs : RawFredObs := ⟨"2024-02-01", "32"⟩

def milkRow : StoredRecord := ⟨0, "milk_price", "2024-02-01", 32, 32, 32, .fred milkObs⟩

def milkStore : Store := ⟨[milkRow], 1⟩

def goldMD : MetalData := ⟨⟨100, 101, 99⟩, "2024-06-01T12:00:00Z"⟩

def goldRow : StoredRecord := ⟨0, "gold", "2024-06-01", 100, 101, 99, .metal goldMD⟩

def goldStore : Store := ⟨[goldRow], 1⟩

/-- A cpi row with an id distinct from `goldRow`, so both can share a
store with unique ids. -/
def cpiRow1 : StoredRecord := ⟨1, "cpi", "2024-05-01", 310, 310, 310, .bls cpiPoint⟩

/-- A store holding rows of two different keys with distinct ids. -/
def mixedStore : Store := ⟨[goldRow, cpiRow1], 2⟩

/-- No two rows of the store share a `(data_type, date)` key. -/
def KeyUnique (st : Store) : Prop :=
  st.rows.Pairwise (fun a b => ¬(a.data_type = b.data_type ∧ a.date = b.date))

instance (st : Store) : Decidable (KeyUnique st) :=
  inferInstanceAs (Decidable (st.rows.Pairwise
    (fun (a b : StoredRecord) => ¬(a.data_type = b.data_type ∧ a.date = b.date))))

/-- No two rows of the store share an id (the store assigns fresh ids). -/
def IdsUnique (st : Store) : Prop :=
  st.rows.Pairwise (fun a b => a.id ≠ b.id)

instance (st : Store) : Decidable (IdsUnique st) :=
  inferInstanceAs (Decidable (st.rows.Pairwise
    (fun (a b : StoredRecord) => a.id ≠ b.id)))

/-- A store operation addresses only the key `(dt, d)`: reads and
inserts carry exactly that key, and an update's id is the id of a row of
`st` whose key is `(dt, d)`. -/
def TouchesOnlyKey (st : Store) (dt d : String) : StoreOp → Prop
  | .read dt2 d2 => dt2 = dt ∧ d2 = d
  | .insertOp dt2 d2 _ _ _ _ => dt2 = dt ∧ d2 = d
  | .updateOp i _ _ _ _ => ∃ e, e ∈ st.rows ∧ e.id = i ∧ e.data_type = dt ∧ e.date = d

/-! ### Helper lemmas about the store -/

theorem selectByKey_mem {st : Store} {dt d : String} {r : StoredRecord} :
    r ∈ selectByKey st dt d ↔ r ∈ st.rows ∧ r.data_type = dt ∧ r.date = d := by
  simp [selectByKey, List.mem_filter]

theorem selectByKey_insert_same (st : Store) (dt d : String) (a hi lo : ℚ) (raw : RawData) :
    selectByKey (insertRow st dt d a hi lo raw) dt d =
      selectByKey st dt d ++ [⟨st.nextId, dt, d, a, hi, lo, raw⟩] := by
  simp [selectByKey, insertRow, List.filter_append]

theorem updateRow_fields (st : Store) (i : Nat) (a hi lo : ℚ) (raw : RawData) :
    ∀ r ∈ (updateRow st i a hi lo raw).rows, r.id = i →
      r.average = a ∧ r.high = hi ∧ r.low = lo ∧ r.raw_data = raw := by
  intro r hr hid
  simp only [updateRow, List.mem_map] at hr
  obtain ⟨r0, _, heq⟩ := hr
  by_cases h0 : r0.id = i
  · simp only [h0, if_pos] at heq
    subst heq
    simp
  · simp only [h0, if_neg, ite_false] at heq
    subst heq
    exact absurd hid h0

theorem updateRow_rowKey (st : Store) (i : Nat) (a hi lo : ℚ) (raw : RawData) :
    ((updateRow st i a hi lo raw).rows.map rowKey) = st.rows.map rowKey := by
  simp only [updateRow, List.map_map]
  have hfun : (rowKey ∘ fun r =>
      if r.id = i then
        { r with average := a, high := hi, low := lo, raw_data := raw }
      else r) = rowKey := by
    funext r
    by_cases h0 : r.id = i <;> simp [rowKey, h0]
  rw [hfun]

example : parseFloat "310" = some 310 := by decide
example : parseFloat "." = none := by decide
example : parseFloat "" = none := by decide
example : parseFloat " 32 " = some 32 := by decide
example : parseFloat "-4" = some (-4) := by decide
example : parseFloat "N/A" = none := by decide
example : monthOf "M05" = "05" := by decide
example : monthOf "M13" = "13" := by decide
example : monthOf "Q01" = "01" := by decide
example : metalDate "2024-06-01T12:00:00Z" = "2024-06-01" := by decide

/-! ### Claim C8 -/

/-- C8: a BLS data point whose value string is empty or whitespace-only,
and a FRED observation whose value is empty or the sentinel `"."`, each
produce no observation and no store operation at all — neither a read
nor a write — and leave the store untouched. -/
theorem c8_blank_and_sentinel_no_store_call :
    (∀ (dt : String) (st : Store) (p : RawBLSPoint),
      (p.value = "" ∨ pyStrip p.value = "") →
      blsStep dt st p = ⟨st, [], .skipped⟩) ∧
    (∀ (dt : String) (st : Store) (o : RawFredObs),
      (o.value = "" ∨ o.value = ".") →
      fredStep dt st o = ⟨st, [], .skipped⟩) := by
  constructor
  · intro dt st p h
    unfold blsStep
    rw [if_pos h]
  · intro dt st o h
    unfold fredStep
    rw [if_pos h]

/-- Witness for C8 at a whitespace-only BLS value and the FRED `"."`
sentinel. -/
theorem c8_witness :
    blsStep "cpi" emptyStore ⟨"2024", "M05", " "⟩ = ⟨emptyStore, [], .skipped⟩ ∧
    fredStep "milk_price" emptyStore ⟨"2024-01-01", "."⟩ = ⟨emptyStore, [], .skipped⟩ :=
  ⟨c8_blank_and_sentinel_no_store_call.1 "cpi" emptyStore ⟨"2024", "M05", " "⟩
      (Or.inr (by decide)),
   c8_blank_and_sentinel_no_store_call.2 "milk_price" emptyStore ⟨"2024-01-01", "."⟩
      (Or.inr rfl)⟩

/-! ### Claim C4 -/

/-- C4 counterexample: the claim says any period code other than
`M01..M12` defaults to month `1`, so every produced date would have a
month in `1..12`.  The code instead keeps the suffix of every code that
starts with `M`: the real BLS annual-average period code `M13` yields
month `"13"` and the impossible date `"2024-13-01"`, not month `"01"`. -/
theorem c4_counterexample :
    blsDate ⟨"2024", "M13", "310"⟩ = "2024-13-01" ∧ monthOf "M13" ≠ "01" := by
  decide

/-- C4 (amended): `M01..M12` do map to months `01..12`, and a period
code that does not start with `M` defaults to month `"01"`; but a code
that starts with `M` maps to its raw suffix whatever it is, so the month
of the produced `year-month-01` date is not guaranteed to lie in
`1..12`. -/
theorem c4_period_code_mapping (period : String) :
    (monthOf "M01" = "01" ∧ monthOf "M02" = "02" ∧ monthOf "M03" = "03" ∧
     monthOf "M04" = "04" ∧ monthOf "M05" = "05" ∧ monthOf "M06" = "06" ∧
     monthOf "M07" = "07" ∧ monthOf "M08" = "08" ∧ monthOf "M09" = "09" ∧
     monthOf "M10" = "10" ∧ monthOf "M11" = "11" ∧ monthOf "M12" = "12") ∧
    (∀ rest : List Char, period.data = 'M' :: rest → monthOf period = ⟨rest⟩) ∧
    (period.data.head? ≠ some 'M' → monthOf period = "01") ∧
    (∀ p : RawBLSPoint, blsDate p = p.year ++ "-" ++ monthOf p.period ++ "-01") := by
  refine ⟨by decide, ?_, ?_, fun p => rfl⟩
  · intro rest h
    unfold monthOf
    rw [h]
    rfl
  · intro h
    unfold monthOf
    cases hp : period.data with
    | nil => rfl
    | cons c rest =>
      rw [hp] at h
      simp only [List.head?] at h
      split
      · rename_i heq
        injection heq with h1 h2
        exact absurd (by rw [h1]) h
      · rfl

/-- Witness for C4 at the annual-average code `M13` (suffix kept) and
the quarterly-style code `Q01` (fallback to `"01"`). -/
theorem c4_witness :
    monthOf "M13" = (⟨['1', '3']⟩ : String) ∧ monthOf "Q01" = "01" :=
  ⟨(c4_period_code_mapping "M13").2.1 ['1', '3'] rfl,
   (c4_period_code_mapping "Q01").2.2.1 (by decide)⟩

/-! ### Claim C1 -/

/-- C1 counterexample: the claim extends the "numerically identical →
NoOp, no write" rule to the metals-spot path.  With a stored gold row
whose average/high/low already equal the incoming rate exactly,
`update_metal_price` still issues an update write: its outcome is
`updated`, not `unchanged`, and its event list contains a write. -/
theorem c1_counterexample :
    (update_metal_price "gold" goldStore (some goldMD)).outcome = .updated ∧
    ((update_metal_price "gold" goldStore (some goldMD)).events.any StoreOp.isWrite) = true := by
  decide

/-- C1 (amended): for the BLS and FRED paths, an observation whose key
already has a stored record with a numerically identical `average`
produces outcome `unchanged` with only the lookup read issued (no write)
and the store left untouched; the metals-spot path instead issues an
unconditional update whenever any record exists for the key. -/
theorem c1_unchanged_value_noop :
    (∀ (dt : String) (st : Store) (p : RawBLSPoint) (e : StoredRecord)
        (rest : List StoredRecord) (v : ℚ),
      ¬(p.value = "" ∨ pyStrip p.value = "") →
      parseFloat p.value = some v →
      selectByKey st dt (blsDate p) = e :: rest →
      e.average = v →
      blsStep dt st p = ⟨st, [.read dt (blsDate p)], .unchanged⟩) ∧
    (∀ (dt : String) (st : Store) (o : RawFredObs) (e : StoredRecord)
        (rest : List StoredRecord) (v : ℚ),
      ¬(o.value = "" ∨ o.value = ".") →
      parseFloat o.value = some v →
      selectByKey st dt o.date = e :: rest →
      e.average = v →
      fredStep dt st o = ⟨st, [.read dt o.date], .unchanged⟩) ∧
    (∀ (metal : String) (st : Store) (md : MetalData) (e : StoredRecord)
        (rest : List StoredRecord),
      selectByKey st metal (metalDate md.timestamp) = e :: rest →
      (update_metal_price metal st (some md)).outcome = .updated) := by
  refine ⟨?_, ?_, ?_⟩
  · intro dt st p e rest v h1 h2 h3 h4
    simp [blsStep, h1, h2, h3, h4]
  · intro dt st o e rest v h1 h2 h3 h4
    simp [fredStep, h1, h2, h3, h4]
  · intro metal st md e rest h
    simp [update_metal_price, h]

/-- Witness for C1 at concrete stores: an identical CPI value yields
`unchanged` with a single read, an identical milk-price value likewise,
and an identical gold rate still yields `updated`. -/
theorem c1_witness :
    blsStep "cpi" cpiStore cpiPoint = ⟨cpiStore, [.read "cpi" "2024-05-01"], .unchanged⟩ ∧
    fredStep "milk_price" milkStore milkObs
      = ⟨milkStore, [.read "milk_price" "2024-02-01"], .unchanged⟩ ∧
    (update_metal_price "gold" goldStore (some goldMD)).outcome = .updated :=
  ⟨c1_unchanged_value_noop.1 "cpi" cpiStore cpiPoint cpiRow [] 310
      (by decide) (by decide) (by decide) (by decide),
   c1_unchanged_value_noop.2.1 "milk_price" milkStore milkObs milkRow [] 32
      (by decide) (by decide) (by decide) (by decide),
   c1_unchanged_value_noop.2.2 "gold" goldStore goldMD goldRow [] (by decide)⟩

/-! ### Claim C6 -/

/-- C6: for the BLS and FRED paths, an observation whose key has a
stored record whose `average` differs from the parsed value — exact
rational inequality, no tolerance — produces exactly an update addressed
at the first existing record's id, and after the write every row with
that id carries the new value as `average`, `high` and `low` and the
observation's source record as `raw_data` (the whole payload is
replaced, not merged). -/
theorem c6_revision_detection :
    (∀ (dt : String) (st : Store) (p : RawBLSPoint) (e : StoredRecord)
        (rest : List StoredRecord) (v : ℚ),
      ¬(p.value = "" ∨ pyStrip p.value = "") →
      parseFloat p.value = some v →
      selectByKey st dt (blsDate p) = e :: rest →
      e.average ≠ v →
      blsStep dt st p =
        ⟨updateRow st e.id v v v (.bls p),
         [.read dt (blsDate p), .updateOp e.id v v v (.bls p)], .updated⟩ ∧
      ∀ r ∈ (blsStep dt st p).store.rows, r.id = e.id →
        r.average = v ∧ r.high = v ∧ r.low = v ∧ r.raw_data = .bls p) ∧
    (∀ (dt : String) (st : Store) (o : RawFredObs) (e : StoredRecord)
        (rest : List StoredRecord) (v : ℚ),
      ¬(o.value = "" ∨ o.value = ".") →
      parseFloat o.value = some v →
      selectByKey st dt o.date = e :: rest →
      e.average ≠ v →
      fredStep dt st o =
        ⟨updateRow st e.id v v v (.fred o),
         [.read dt o.date, .updateOp e.id v v v (.fred o)], .updated⟩ ∧
      ∀ r ∈ (fredStep dt st o).store.rows, r.id = e.id →
        r.average = v ∧ r.high = v ∧ r.low = v ∧ r.raw_data = .fred o) := by
  constructor
  · intro dt st p e rest v h1 h2 h3 h4
    have hstep : blsStep dt st p =
        ⟨updateRow st e.id v v v (.bls p),
         [.read dt (blsDate p), .updateOp e.id v v v (.bls p)], .updated⟩ := by
      simp [blsStep, h1, h2, h3, h4]
    refine ⟨hstep, ?_⟩
    rw [hstep]
    exact updateRow_fields st e.id v v v (.bls p)
  · intro dt st o e rest v h1 h2 h3 h4
    have hstep : fredStep dt st o =
        ⟨updateRow st e.id v v v (.fred o),
         [.read dt o.date, .updateOp e.id v v v (.fred o)], .updated⟩ := by
      simp [fredStep, h1, h2, h3, h4]
    refine ⟨hstep, ?_⟩
    rw [hstep]
    exact updateRow_fields st e.id v v v (.fred o)

/-- Witness for C6: a revised CPI value 311 against a stored 310 and a
revised milk price 33 against a stored 32 each yield exactly the update
addressed at the stored row's id, carrying the new value into all four
rewritten columns. -/
theorem c6_witness :
    (blsStep "cpi" cpiStore ⟨"2024", "M05", "311"⟩ =
      ⟨updateRow cpiStore 0 311 311 311 (.bls ⟨"2024", "M05", "311"⟩),
       [.read "cpi" "2024-05-01", .updateOp 0 311 311 311 (.bls ⟨"2024", "M05", "311"⟩)],
       .updated⟩ ∧
     ∀ r ∈ (blsStep "cpi" cpiStore ⟨"2024", "M05", "311"⟩).store.rows, r.id = 0 →
       r.average = 311 ∧ r.high = 311 ∧ r.low = 311 ∧
       r.raw_data = .bls ⟨"2024", "M05", "311"⟩) ∧
    (fredStep "milk_price" milkStore ⟨"2024-02-01", "33"⟩ =
      ⟨updateRow milkStore 0 33 33 33 (.fred ⟨"2024-02-01", "33"⟩),
       [.read "milk_price" "2024-02-01", .updateOp 0 33 33 33 (.fred ⟨"2024-02-01", "33"⟩)],
       .updated⟩ ∧
     ∀ r ∈ (fredStep "milk_price" milkStore ⟨"2024-02-01", "33"⟩).store.rows, r.id = 0 →
       r.average = 33 ∧ r.high = 33 ∧ r.low = 33 ∧
       r.raw_data = .fred ⟨"2024-02-01", "33"⟩) :=
  ⟨c6_revision_detection.1 "cpi" cpiStore ⟨"2024", "M05", "311"⟩ cpiRow [] 311
      (by decide) (by decide) (by decide) (by decide),
   c6_revision_detection.2 "milk_price" milkStore ⟨"2024-02-01", "33"⟩ milkRow [] 33
      (by decide) (by decide) (by decide) (by decide)⟩

/-! ### Claim C5 -/

/-- C5 counterexample: the claim says reconciling the same observation
twice yields Insert then NoOp for every path, including the metals one
it cites.  On the metals path a second pass over the identical payload
yields `updated` — an unconditional write — never `unchanged`. -/
theorem c5_counterexample :
    (update_metal_price "gold" emptyStore (some goldMD)).outcome = .inserted ∧
    (update_metal_price "gold"
        (update_metal_price "gold" emptyStore (some goldMD)).store
        (some goldMD)).outcome = .updated ∧
    (update_metal_price "gold"
        (update_metal_price "gold" emptyStore (some goldMD)).store
        (some goldMD)).outcome ≠ .unchanged := by
  decide

/-- C5 (amended): reconciling the same observation twice against a store
initially without its key yields Insert then NoOp on the BLS and FRED
paths (second pass: only the lookup read, store untouched); on the
metals path it yields Insert then UpdateValue.  On no path does the
second pass insert again. -/
theorem c5_insert_then_noop :
    (∀ (dt : String) (st : Store) (p : RawBLSPoint) (v : ℚ),
      ¬(p.value = "" ∨ pyStrip p.value = "") →
      parseFloat p.value = some v →
      selectByKey st dt (blsDate p) = [] →
      (blsStep dt st p).outcome = .inserted ∧
      blsStep dt (blsStep dt st p).store p =
        ⟨(blsStep dt st p).store, [.read dt (blsDate p)], .unchanged⟩) ∧
    (∀ (dt : String) (st : Store) (o : RawFredObs) (v : ℚ),
      ¬(o.value = "" ∨ o.value = ".") →
      parseFloat o.value = some v →
      selectByKey st dt o.date = [] →
      (fredStep dt st o).outcome = .inserted ∧
      fredStep dt (fredStep dt st o).store o =
        ⟨(fredStep dt st o).store, [.read dt o.date], .unchanged⟩) ∧
    (∀ (metal : String) (st : Store) (md : MetalData),
      selectByKey st metal (metalDate md.timestamp) = [] →
      (update_metal_price metal st (some md)).outcome = .inserted ∧
      (update_metal_price metal
          (update_metal_price metal st (some md)).store (some md)).outcome = .updated) := by
  refine ⟨?_, ?_, ?_⟩
  · intro dt st p v h1 h2 h3
    have hs1 : blsStep dt st p =
        ⟨insertRow st dt (blsDate p) v v v (.bls p),
         [.read dt (blsDate p), .insertOp dt (blsDate p) v v v (.bls p)], .inserted⟩ := by
      simp [blsStep, h1, h2, h3]
    have hsel : selectByKey (insertRow st dt (blsDate p) v v v (.bls p)) dt (blsDate p) =
        [⟨st.nextId, dt, blsDate p, v, v, v, .bls p⟩] := by
      rw [selectByKey_insert_same, h3]
      rfl
    refine ⟨by rw [hs1], ?_⟩
    rw [hs1]
    simp [blsStep, h1, h2, hsel]
  · intro dt st o v h1 h2 h3
    have hs1 : fredStep dt st o =
        ⟨insertRow st dt o.date v v v (.fred o),
         [.read dt o.date, .insertOp dt o.date v v v (.fred o)], .inserted⟩ := by
      simp [fredStep, h1, h2, h3]
    have hsel : selectByKey (insertRow st dt o.date v v v (.fred o)) dt o.date =
        [⟨st.nextId, dt, o.date, v, v, v, .fred o⟩] := by
      rw [selectByKey_insert_same, h3]
      rfl
    refine ⟨by rw [hs1], ?_⟩
    rw [hs1]
    simp [fredStep, h1, h2, hsel]
  · intro metal st md h3
    have hs1 : update_metal_price metal st (some md) =
        ⟨insertRow st metal (metalDate md.timestamp)
            md.rate.price md.rate.high md.rate.low (.metal md),
         [.read metal (metalDate md.timestamp),
          .insertOp metal (metalDate md.timestamp)
            md.rate.price md.rate.high md.rate.low (.metal md)], .inserted⟩ := by
      simp [update_metal_price, h3]
    have hsel : selectByKey
        (insertRow st metal (metalDate md.timestamp)
          md.rate.price md.rate.high md.rate.low (.metal md))
        metal (metalDate md.timestamp) =
        [⟨st.nextId, metal, metalDate md.timestamp,
          md.rate.price, md.rate.high, md.rate.low, .metal md⟩] := by
      rw [selectByKey_insert_same, h3]
      rfl
    refine ⟨by rw [hs1], ?_⟩
    rw [hs1]
    simp [update_metal_price, hsel]

/-- Witness for C5: against the empty store the CPI point, the milk
observation and the gold payload each insert on the first pass; on the
second pass the first two are `unchanged` with a bare read and gold is
`updated`. -/
theorem c5_witness :
    ((blsStep "cpi" emptyStore cpiPoint).outcome = .inserted ∧
     blsStep "cpi" (blsStep "cpi" emptyStore cpiPoint).store cpiPoint =
       ⟨(blsStep "cpi" emptyStore cpiPoint).store, [.read "cpi" "2024-05-01"], .unchanged⟩) ∧
    ((fredStep "milk_price" emptyStore milkObs).outcome = .inserted ∧
     fredStep "milk_price" (fredStep "milk_price" emptyStore milkObs).store milkObs =
       ⟨(fredStep "milk_price" emptyStore milkObs).store,
        [.read "milk_price" "2024-02-01"], .unchanged⟩) ∧
    ((update_metal_price "gold" emptyStore (some goldMD)).outcome = .inserted ∧
     (update_metal_price "gold"
        (update_metal_price "gold" emptyStore (some goldMD)).store
        (some goldMD)).outcome = .updated) :=
  ⟨c5_insert_then_noop.1 "cpi" emptyStore cpiPoint 310 (by decide) (by decide) (by decide),
   c5_insert_then_noop.2.1 "milk_price" emptyStore milkObs 32
      (by decide) (by decide) (by decide),
   c5_insert_then_noop.2.2 "gold" emptyStore goldMD (by decide)⟩

/-! ### Claim C2 -/

/-- C2 counterexample: the claim extends skip-and-continue on a bad
value to every adapter.  In the BLS loop an unparsable non-blank value
(`"N/A"`) has no exception handler: the batch aborts at that point and
the following valid June observation is never reconciled — the store
stays empty. -/
theorem c2_counterexample :
    (blsLoop "cpi" emptyStore [⟨"2024", "M05", "N/A"⟩, ⟨"2024", "M06", "310"⟩]).aborted
        = true ∧
    (blsLoop "cpi" emptyStore [⟨"2024", "M05", "N/A"⟩, ⟨"2024", "M06", "310"⟩]).store
        = emptyStore ∧
    (blsLoop "cpi" emptyStore [⟨"2024", "M05", "N/A"⟩, ⟨"2024", "M06", "310"⟩]).processed
        = [("2024-05-01", .parseError)] := by
  decide

/-- C2 (amended): the FRED loop never aborts, and an observation with an
unparsable non-sentinel value contributes only its lookup read and an
`invalid` tag while the rest of the batch is processed exactly as it
would have been; the BLS loop, by contrast, has no parse-failure guard —
an unparsable non-blank value aborts the batch there, leaving the
remaining points unprocessed. -/
theorem c2_parse_failure_isolation :
    (∀ (dt : String) (st : Store) (l : List RawFredObs),
      (fredLoop dt st l).aborted = false) ∧
    (∀ (dt : String) (st : Store) (bad : RawFredObs) (os : List RawFredObs),
      ¬(bad.value = "" ∨ bad.value = ".") →
      parseFloat bad.value = none →
      fredLoop dt st (bad :: os) =
        ⟨(fredLoop dt st os).store,
         .read dt bad.date :: (fredLoop dt st os).events,
         (bad.date, .invalid) :: (fredLoop dt st os).processed,
         (fredLoop dt st os).aborted⟩) ∧
    (∀ (dt : String) (st : Store) (bad : RawBLSPoint) (ps : List RawBLSPoint),
      ¬(bad.value = "" ∨ pyStrip bad.value = "") →
      parseFloat bad.value = none →
      blsLoop dt st (bad :: ps) =
        ⟨st, [.read dt (blsDate bad)], [(blsDate bad, .parseError)], true⟩) := by
  refine ⟨?_, ?_, ?_⟩
  · intro dt st l
    induction l generalizing st with
    | nil => rfl
    | cons o os ih =>
      cases h : (fredStep dt st o).outcome <;>
        simp [fredLoop, h, ih]
  · intro dt st bad os h1 h2
    have hs : fredStep dt st bad = ⟨st, [.read dt bad.date], .invalid⟩ := by
      simp [fredStep, h1, h2]
    simp [fredLoop, hs]
  · intro dt st bad ps h1 h2
    have hs : blsStep dt st bad = ⟨st, [.read dt (blsDate bad)], .parseError⟩ := by
      simp [blsStep, h1, h2]
    simp [blsLoop, hs]

/-- Witness for C2: a FRED batch led by an unparsable `"N/A"` value
still processes the following milk observation, while a BLS batch led by
`"N/A"` aborts with only the read issued. -/
theorem c2_witness :
    fredLoop "milk_price" emptyStore [⟨"2024-01-01", "N/A"⟩, milkObs] =
      ⟨(fredLoop "milk_price" emptyStore [milkObs]).store,
       .read "milk_price" "2024-01-01" :: (fredLoop "milk_price" emptyStore [milkObs]).events,
       ("2024-01-01", .invalid) :: (fredLoop "milk_price" emptyStore [milkObs]).processed,
       (fredLoop "milk_price" emptyStore [milkObs]).aborted⟩ ∧
    blsLoop "cpi" emptyStore [⟨"2024", "M05", "N/A"⟩, ⟨"2024", "M06", "310"⟩] =
      ⟨emptyStore, [.read "cpi" "2024-05-01"], [("2024-05-01", .parseError)], true⟩ :=
  ⟨c2_parse_failure_isolation.2.1 "milk_price" emptyStore ⟨"2024-01-01", "N/A"⟩ [milkObs]
      (by decide) (by decide),
   c2_parse_failure_isolation.2.2 "cpi" emptyStore ⟨"2024", "M05", "N/A"⟩
      [⟨"2024", "M06", "310"⟩] (by decide) (by decide)⟩

/-! ### Claim C3 -/

/-- C3 counterexample: the claim says a structurally invalid top-level
payload surfaces a typed error and the run continues with the other
sources.  A malformed BLS payload instead raises out of
`fetch_latest_bls` — there is no handler in `__main__` — so the run
aborts with no store operation at all, even though the FRED payload of
the same run holds a valid observation that, processed alone, would
insert a row. -/
theorem c3_counterexample :
    mainRun ⟨.malformed, none, none, some (.success [milkObs])⟩ emptyStore
      = (emptyStore, [], true) ∧
    (runFred (some (.success [milkObs])) emptyStore).store.rows ≠ [] := by
  decide

/-- C3 (amended): handled source failures are isolated — a BLS response
with a non-success status returns `None` and the gold, silver and FRED
legs run exactly as they would alone, and caught metal-fetch failures
(error status or a decoding exception) leave the FRED leg untouched; but
a malformed BLS payload aborts the whole run before any other source is
processed. -/
theorem c3_source_failure_isolation :
    (∀ (g s : Option MetalPayload) (f : Option FredPayload) (st : Store),
      mainRun ⟨.failure, g, s, f⟩ st =
        ((runRest g s f st).1, (runRest g s f st).2, false)) ∧
    (∀ (f : Option FredPayload) (st : Store),
      runRest (some .failure) (some .malformed) f st =
        ((runFred f st).store, (runFred f st).events)) ∧
    (∀ (g s : Option MetalPayload) (f : Option FredPayload) (st : Store),
      mainRun ⟨.malformed, g, s, f⟩ st = (st, [], true)) := by
  refine ⟨fun g s f st => rfl, fun f st => rfl, fun g s f st => rfl⟩

/-! ### Key-uniqueness helper lemmas -/

theorem insertRow_keyUnique (st : Store) (dt d : String) (a hi lo : ℚ) (raw : RawData)
    (h : KeyUnique st) (hsel : selectByKey st dt d = []) :
    KeyUnique (insertRow st dt d a hi lo raw) := by
  unfold KeyUnique insertRow
  rw [List.pairwise_append]
  refine ⟨h, List.pairwise_singleton _ _, ?_⟩
  intro x hx b hb
  simp only [List.mem_singleton] at hb
  subst hb
  intro hkey
  have hmem : x ∈ selectByKey st dt d := selectByKey_mem.2 ⟨hx, hkey.1, hkey.2⟩
  rw [hsel] at hmem
  exact absurd hmem (List.not_mem_nil x)

theorem updateRow_keyUnique (st : Store) (i : Nat) (a hi lo : ℚ) (raw : RawData)
    (h : KeyUnique st) : KeyUnique (updateRow st i a hi lo raw) := by
  unfold KeyUnique updateRow
  rw [List.pairwise_map]
  refine h.imp ?_
  intro x y hxy
  by_cases hx : x.id = i <;> by_cases hy : y.id = i <;> simpa [hx, hy] using hxy

theorem blsStep_keyUnique (dt : String) (st : Store) (p : RawBLSPoint)
    (h : KeyUnique st) : KeyUnique (blsStep dt st p).store := by
  by_cases h1 : p.value = "" ∨ pyStrip p.value = ""
  · simpa [blsStep, h1] using h
  · rcases hp : parseFloat p.value with _ | v
    · simpa [blsStep, h1, hp] using h
    · rcases hsel : selectByKey st dt (blsDate p) with _ | ⟨e, rest⟩
      · simpa [blsStep, h1, hp, hsel] using
          insertRow_keyUnique st dt (blsDate p) v v v (.bls p) h hsel
      · by_cases hv : e.average = v
        · simpa [blsStep, h1, hp, hsel, hv] using h
        · simpa [blsStep, h1, hp, hsel, hv] using
            updateRow_keyUnique st e.id v v v (.bls p) h

theorem fredStep_keyUnique (dt : String) (st : Store) (o : RawFredObs)
    (h : KeyUnique st) : KeyUnique (fredStep dt st o).store := by
  by_cases h1 : o.value = "" ∨ o.value = "."
  · simpa [fredStep, h1] using h
  · rcases hp : parseFloat o.value with _ | v
    · simpa [fredStep, h1, hp] using h
    · rcases hsel : selectByKey st dt o.date with _ | ⟨e, rest⟩
      · simpa [fredStep, h1, hp, hsel] using
          insertRow_keyUnique st dt o.date v v v (.fred o) h hsel
      · by_cases hv : e.average = v
        · simpa [fredStep, h1, hp, hsel, hv] using h
        · simpa [fredStep, h1, hp, hsel, hv] using
            updateRow_keyUnique st e.id v v v (.fred o) h

theorem metal_keyUnique (metal : String) (st : Store) (md : Option MetalData)
    (h : KeyUnique st) : KeyUnique (update_metal_price metal st md).store := by
  rcases md with _ | md
  · simpa [update_metal_price] using h
  · rcases hsel : selectByKey st metal (metalDate md.timestamp) with _ | ⟨e, rest⟩
    · simpa [update_metal_price, hsel] using
        insertRow_keyUnique st metal (metalDate md.timestamp)
          md.rate.price md.rate.high md.rate.low (.metal md) h hsel
    · simpa [update_metal_price, hsel] using
        updateRow_keyUnique st e.id md.rate.price md.rate.high md.rate.low (.metal md) h

/-! ### Claim C7 -/

/-- C7 counterexample: the adapters perform no internal deduplication.
A BLS batch that repeats period `M05` sends two observations with the
same `("cpi", "2024-05-01")` key through reconciliation — the processed
sequence holds the key twice (first inserted, then treated as a
revision), contradicting "at most one Observation per (seriesType,
date)". -/
theorem c7_counterexample :
    (blsLoop "cpi" emptyStore
        [⟨"2024", "M05", "310"⟩, ⟨"2024", "M05", "311"⟩]).processed
      = [("2024-05-01", .inserted), ("2024-05-01", .updated)] ∧
    ((blsLoop "cpi" emptyStore
        [⟨"2024", "M05", "310"⟩, ⟨"2024", "M05", "311"⟩]).processed.map Prod.fst)
      = ["2024-05-01", "2024-05-01"] := by
  decide

/-- C7 (amended): the adapters do not deduplicate — a repeated period is
processed once per repetition — but no duplicate row can result: if the
store holds at most one row per `(data_type, date)` key, it still does
after any BLS or FRED batch and after any metals call, because a later
repetition finds the earlier row and takes the update/no-op path rather
than inserting. -/
theorem c7_store_key_uniqueness_preserved :
    (∀ (dt : String) (st : Store) (l : List RawBLSPoint),
      KeyUnique st → KeyUnique (blsLoop dt st l).store) ∧
    (∀ (dt : String) (st : Store) (l : List RawFredObs),
      KeyUnique st → KeyUnique (fredLoop dt st l).store) ∧
    (∀ (metal : String) (st : Store) (md : Option MetalData),
      KeyUnique st → KeyUnique (update_metal_price metal st md).store) := by
  refine ⟨?_, ?_, fun metal st md h => metal_keyUnique metal st md h⟩
  · intro dt st l
    induction l generalizing st with
    | nil => exact fun h => h
    | cons p ps ih =>
      intro h
      have hstep := blsStep_keyUnique dt st p h
      cases ho : (blsStep dt st p).outcome with
      | parseError => simpa [blsLoop, ho] using hstep
      | skipped => simpa [blsLoop, ho] using ih (blsStep dt st p).store hstep
      | invalid => simpa [blsLoop, ho] using ih (blsStep dt st p).store hstep
      | inserted => simpa [blsLoop, ho] using ih (blsStep dt st p).store hstep
      | updated => simpa [blsLoop, ho] using ih (blsStep dt st p).store hstep
      | unchanged => simpa [blsLoop, ho] using ih (blsStep dt st p).store hstep
  · intro dt st l
    induction l generalizing st with
    | nil => exact fun h => h
    | cons o os ih =>
      intro h
      have hstep := fredStep_keyUnique dt st o h
      cases ho : (fredStep dt st o).outcome <;>
        simpa [fredLoop, ho] using ih (fredStep dt st o).store hstep

/-- Witness for C7: the duplicate-period CPI batch of the
counterexample, run from the empty store, still leaves a store with at
most one row per key; same for a milk batch and a gold call. -/
theorem c7_witness :
    KeyUnique (blsLoop "cpi" emptyStore
      [⟨"2024", "M05", "310"⟩, ⟨"2024", "M05", "311"⟩]).store ∧
    KeyUnique (fredLoop "milk_price" emptyStore [milkObs, milkObs]).store ∧
    KeyUnique (update_metal_price "gold" goldStore (some goldMD)).store :=
  ⟨c7_store_key_uniqueness_preserved.1 "cpi" emptyStore
      [⟨"2024", "M05", "310"⟩, ⟨"2024", "M05", "311"⟩] (by decide),
   c7_store_key_uniqueness_preserved.2.1 "milk_price" emptyStore [milkObs, milkObs]
      (by decide),
   c7_store_key_uniqueness_preserved.2.2 "gold" goldStore (some goldMD) (by decide)⟩

/-! ### Frame lemmas for claim C9 -/

theorem filter_map_invariant {α : Type} (l : List α) (f : α → α) (p : α → Bool)
    (h1 : ∀ r ∈ l, p (f r) = p r) (h2 : ∀ r ∈ l, p r = true → f r = r) :
    (l.map f).filter p = l.filter p := by
  induction l with
  | nil => rfl
  | cons x xs ih =>
    have hx := h1 x (List.mem_cons_self x xs)
    have ih2 := ih (fun r hr => h1 r (List.mem_cons_of_mem x hr))
      (fun r hr => h2 r (List.mem_cons_of_mem x hr))
    cases hpx : p x with
    | false =>
      simp [List.filter_cons, hx, hpx, ih2]
    | true =>
      have hfx := h2 x (List.mem_cons_self x xs) hpx
      simp [List.filter_cons, hx, hpx, hfx, ih2]

theorem updateRow_filter_other (st : Store) (dt d : String) (e : StoredRecord)
    (a hi lo : ℚ) (raw : RawData) (hids : IdsUnique st)
    (he : e ∈ st.rows) (hedt : e.data_type = dt) (hed : e.date = d) :
    (updateRow st e.id a hi lo raw).rows.filter
        (fun r => !(r.data_type == dt && r.date == d)) =
      st.rows.filter (fun r => !(r.data_type == dt && r.date == d)) := by
  have hsymm : Symmetric (fun (a b : StoredRecord) => a.id ≠ b.id) := by
    intro x y h heq
    exact h heq.symm
  simp only [updateRow]
  apply filter_map_invariant
  · intro r _
    by_cases hid : r.id = e.id <;> simp [hid]
  · intro r hr hq
    have hkey : ¬(r.data_type = dt ∧ r.date = d) := by
      intro hk
      simp [hk.1, hk.2] at hq
    have hne : r ≠ e := by
      intro hre
      exact hkey (by rw [hre]; exact ⟨hedt, hed⟩)
    have hidne : r.id ≠ e.id := List.Pairwise.forall hsymm hids hr he hne
    simp [hidne]

theorem insertRow_filter_other (st : Store) (dt d : String) (a hi lo : ℚ) (raw : RawData) :
    (insertRow st dt d a hi lo raw).rows.filter
        (fun r => !(r.data_type == dt && r.date == d)) =
      st.rows.filter (fun r => !(r.data_type == dt && r.date == d)) := by
  simp [insertRow, List.filter_append]

/-! ### Claim C9 -/

/-- C9: provided the store's row ids are unique (the store assigns
them), reconciling one observation never reads or writes a record of any
other `(data_type, date)` key: the rows not matching the observation's
key are left exactly as they were, every read and insert carries exactly
the observation's key, and every update addresses the id of a row of the
pre-state whose key is the observation's key.  This holds on all three
paths. -/
theorem c9_key_isolation :
    (∀ (dt : String) (st : Store) (p : RawBLSPoint), IdsUnique st →
      ((blsStep dt st p).store.rows.filter
          (fun r => !(r.data_type == dt && r.date == blsDate p)) =
        st.rows.filter (fun r => !(r.data_type == dt && r.date == blsDate p))) ∧
      ∀ ev ∈ (blsStep dt st p).events, TouchesOnlyKey st dt (blsDate p) ev) ∧
    (∀ (dt : String) (st : Store) (o : RawFredObs), IdsUnique st →
      ((fredStep dt st o).store.rows.filter
          (fun r => !(r.data_type == dt && r.date == o.date)) =
        st.rows.filter (fun r => !(r.data_type == dt && r.date == o.date))) ∧
      ∀ ev ∈ (fredStep dt st o).events, TouchesOnlyKey st dt o.date ev) ∧
    (∀ (metal : String) (st : Store) (md : MetalData), IdsUnique st →
      ((update_metal_price metal st (some md)).store.rows.filter
          (fun r => !(r.data_type == metal && r.date == metalDate md.timestamp)) =
        st.rows.filter
          (fun r => !(r.data_type == metal && r.date == metalDate md.timestamp))) ∧
      ∀ ev ∈ (update_metal_price metal st (some md)).events,
        TouchesOnlyKey st metal (metalDate md.timestamp) ev) := by
  refine ⟨?_, ?_, ?_⟩
  · intro dt st p hids
    by_cases h1 : p.value = "" ∨ pyStrip p.value = ""
    · have hstep : blsStep dt st p = ⟨st, [], .skipped⟩ := by simp [blsStep, h1]
      rw [hstep]
      exact ⟨rfl, by intro ev hev; simp at hev⟩
    · rcases hp : parseFloat p.value with _ | v
      · have hstep : blsStep dt st p = ⟨st, [.read dt (blsDate p)], .parseError⟩ := by
          simp [blsStep, h1, hp]
        rw [hstep]
        refine ⟨rfl, ?_⟩
        intro ev hev
        simp only [List.mem_singleton] at hev
        subst hev
        exact ⟨rfl, rfl⟩
      · rcases hsel : selectByKey st dt (blsDate p) with _ | ⟨e, rest⟩
        · have hstep : blsStep dt st p =
              ⟨insertRow st dt (blsDate p) v v v (.bls p),
               [.read dt (blsDate p), .insertOp dt (blsDate p) v v v (.bls p)],
               .inserted⟩ := by
            simp [blsStep, h1, hp, hsel]
          rw [hstep]
          refine ⟨insertRow_filter_other st dt (blsDate p) v v v (.bls p), ?_⟩
          intro ev hev
          simp only [List.mem_cons, List.mem_singleton, List.not_mem_nil, or_false] at hev
          rcases hev with hev | hev <;> subst hev <;> exact ⟨rfl, rfl⟩
        · have hemem : e ∈ selectByKey st dt (blsDate p) := by
            rw [hsel]
            exact List.mem_cons_self e rest
          obtain ⟨hrows, hedt, hed⟩ := selectByKey_mem.1 hemem
          by_cases hv : e.average = v
          · have hstep : blsStep dt st p = ⟨st, [.read dt (blsDate p)], .unchanged⟩ := by
              simp [blsStep, h1, hp, hsel, hv]
            rw [hstep]
            refine ⟨rfl, ?_⟩
            intro ev hev
            simp only [List.mem_singleton] at hev
            subst hev
            exact ⟨rfl, rfl⟩
          · have hstep : blsStep dt st p =
                ⟨updateRow st e.id v v v (.bls p),
                 [.read dt (blsDate p), .updateOp e.id v v v (.bls p)], .updated⟩ := by
              simp [blsStep, h1, hp, hsel, hv]
            rw [hstep]
            refine ⟨updateRow_filter_other st dt (blsDate p) e v v v (.bls p)
              hids hrows hedt hed, ?_⟩
            intro ev hev
            simp only [List.mem_cons, List.mem_singleton, List.not_mem_nil, or_false] at hev
            rcases hev with hev | hev <;> subst hev
            · exact ⟨rfl, rfl⟩
            · exact ⟨e, hrows, rfl, hedt, hed⟩
  · intro dt st o hids
    by_cases h1 : o.value = "" ∨ o.value = "."
    · have hstep : fredStep dt st o = ⟨st, [], .skipped⟩ := by simp [fredStep, h1]
      rw [hstep]
      exact ⟨rfl, by intro ev hev; simp at hev⟩
    · rcases hp : parseFloat o.value with _ | v
      · have hstep : fredStep dt st o = ⟨st, [.read dt o.date], .invalid⟩ := by
          simp [fredStep, h1, hp]
        rw [hstep]
        refine ⟨rfl, ?_⟩
        intro ev hev
        simp only [List.mem_singleton] at hev
        subst hev
        exact ⟨rfl, rfl⟩
      · rcases hsel : selectByKey st dt o.date with _ | ⟨e, rest⟩
        · have hstep : fredStep dt st o =
              ⟨insertRow st dt o.date v v v (.fred o),
               [.read dt o.date, .insertOp dt o.date v v v (.fred o)], .inserted⟩ := by
            simp [fredStep, h1, hp, hsel]
          rw [hstep]
          refine ⟨insertRow_filter_other st dt o.date v v v (.fred o), ?_⟩
          intro ev hev
          simp only [List.mem_cons, List.mem_singleton, List.not_mem_nil, or_false] at hev
          rcases hev with hev | hev <;> subst hev <;> exact ⟨rfl, rfl⟩
        · have hemem : e ∈ selectByKey st dt o.date := by
            rw [hsel]
            exact List.mem_cons_self e rest
          obtain ⟨hrows, hedt, hed⟩ := selectByKey_mem.1 hemem
          by_cases hv : e.average = v
          · have hstep : fredStep dt st o = ⟨st, [.read dt o.date], .unchanged⟩ := by
              simp [fredStep, h1, hp, hsel, hv]
            rw [hstep]
            refine ⟨rfl, ?_⟩
            intro ev hev
            simp only [List.mem_singleton] at hev
            subst hev
            exact ⟨rfl, rfl⟩
          · have hstep : fredStep dt st o =
                ⟨updateRow st e.id v v v (.fred o),
                 [.read dt o.date, .updateOp e.id v v v (.fred o)], .updated⟩ := by
              simp [fredStep, h1, hp, hsel, hv]
            rw [hstep]
            refine ⟨updateRow_filter_other st dt o.date e v v v (.fred o)
              hids hrows hedt hed, ?_⟩
            intro ev hev
            simp only [List.mem_cons, List.mem_singleton, List.not_mem_nil, or_false] at hev
            rcases hev with hev | hev <;> subst hev
            · exact ⟨rfl, rfl⟩
            · exact ⟨e, hrows, rfl, hedt, hed⟩
  · intro metal st md hids
    rcases hsel : selectByKey st metal (metalDate md.timestamp) with _ | ⟨e, rest⟩
    · have hstep : update_metal_price metal st (some md) =
          ⟨insertRow st metal (metalDate md.timestamp)
              md.rate.price md.rate.high md.rate.low (.metal md),
           [.read metal (metalDate md.timestamp),
            .insertOp metal (metalDate md.timestamp)
              md.rate.price md.rate.high md.rate.low (.metal md)], .inserted⟩ := by
        simp [update_metal_price, hsel]
      rw [hstep]
      refine ⟨insertRow_filter_other st metal (metalDate md.timestamp)
        md.rate.price md.rate.high md.rate.low (.metal md), ?_⟩
      intro ev hev
      simp only [List.mem_cons, List.mem_singleton, List.not_mem_nil, or_false] at hev
      rcases hev with hev | hev <;> subst hev <;> exact ⟨rfl, rfl⟩
    · have hemem : e ∈ selectByKey st metal (metalDate md.timestamp) := by
        rw [hsel]
        exact List.mem_cons_self e rest
      obtain ⟨hrows, hedt, hed⟩ := selectByKey_mem.1 hemem
      have hstep : update_metal_price metal st (some md) =
          ⟨updateRow st e.id md.rate.price md.rate.high md.rate.low (.metal md),
           [.read metal (metalDate md.timestamp),
            .updateOp e.id md.rate.price md.rate.high md.rate.low (.metal md)],
           .updated⟩ := by
        simp [update_metal_price, hsel]
      rw [hstep]
      refine ⟨updateRow_filter_other st metal (metalDate md.timestamp) e
        md.rate.price md.rate.high md.rate.low (.metal md) hids hrows hedt hed, ?_⟩
      intro ev hev
      simp only [List.mem_cons, List.mem_singleton, List.not_mem_nil, or_false] at hev
      rcases hev with hev | hev <;> subst hev
      · exact ⟨rfl, rfl⟩
      · exact ⟨e, hrows, rfl, hedt, hed⟩

/-- Witness for C9 on a store holding a gold row and a cpi row with
distinct ids: a cpi revision, a milk insert and a gold update each leave
the rows of every other key untouched and address only their own key. -/
theorem c9_witness :
    (((blsStep "cpi" mixedStore ⟨"2024", "M05", "311"⟩).store.rows.filter
        (fun r => !(r.data_type == "cpi" && r.date == blsDate ⟨"2024", "M05", "311"⟩)) =
      mixedStore.rows.filter
        (fun r => !(r.data_type == "cpi" && r.date == blsDate ⟨"2024", "M05", "311"⟩))) ∧
     ∀ ev ∈ (blsStep "cpi" mixedStore ⟨"2024", "M05", "311"⟩).events,
       TouchesOnlyKey mixedStore "cpi" (blsDate ⟨"2024", "M05", "311"⟩) ev) ∧
    (((fredStep "milk_price" mixedStore milkObs).store.rows.filter
        (fun r => !(r.data_type == "milk_price" && r.date == milkObs.date)) =
      mixedStore.rows.filter
        (fun r => !(r.data_type == "milk_price" && r.date == milkObs.date))) ∧
     ∀ ev ∈ (fredStep "milk_price" mixedStore milkObs).events,
       TouchesOnlyKey mixedStore "milk_price" milkObs.date ev) ∧
    (((update_metal_price "gold" mixedStore (some goldMD)).store.rows.filter
        (fun r => !(r.data_type == "gold" && r.date == metalDate goldMD.timestamp)) =
      mixedStore.rows.filter
        (fun r => !(r.data_type == "gold" && r.date == metalDate goldMD.timestamp))) ∧
     ∀ ev ∈ (update_metal_price "gold" mixedStore (some goldMD)).events,
       TouchesOnlyKey mixedStore "gold" (metalDate goldMD.timestamp) ev) :=
  ⟨c9_key_isolation.1 "cpi" mixedStore ⟨"2024", "M05", "311"⟩ (by decide),
   c9_key_isolation.2.1 "milk_price" mixedStore milkObs (by decide),
   c9_key_isolation.2.2 "gold" mixedStore goldMD (by decide)⟩

/-! ### Claim C10 -/

/-- C10: on all three paths, whenever the outcome is an update, the
write rewrites only the `average`, `high`, `low` and `raw_data` columns:
every row's id, `data_type` and `date` are exactly what they were before
the update. -/
theorem c10_update_preserves_key_fields :
    (∀ (dt : String) (st : Store) (p : RawBLSPoint),
      (blsStep dt st p).outcome = .updated →
      (blsStep dt st p).store.rows.map rowKey = st.rows.map rowKey) ∧
    (∀ (dt : String) (st : Store) (o : RawFredObs),
      (fredStep dt st o).outcome = .updated →
      (fredStep dt st o).store.rows.map rowKey = st.rows.map rowKey) ∧
    (∀ (metal : String) (st : Store) (md : Option MetalData),
      (update_metal_price metal st md).outcome = .updated →
      (update_metal_price metal st md).store.rows.map rowKey = st.rows.map rowKey) := by
  refine ⟨?_, ?_, ?_⟩
  · intro dt st p h
    by_cases h1 : p.value = "" ∨ pyStrip p.value = ""
    · simp [blsStep, h1] at h
    · rcases hp : parseFloat p.value with _ | v
      · simp [blsStep, h1, hp] at h
      · rcases hsel : selectByKey st dt (blsDate p) with _ | ⟨e, rest⟩
        · simp [blsStep, h1, hp, hsel] at h
        · by_cases hv : e.average = v
          · simp [blsStep, h1, hp, hsel, hv] at h
          · simp [blsStep, h1, hp, hsel, hv, updateRow_rowKey]
  · intro dt st o h
    by_cases h1 : o.value = "" ∨ o.value = "."
    · simp [fredStep, h1] at h
    · rcases hp : parseFloat o.value with _ | v
      · simp [fredStep, h1, hp] at h
      · rcases hsel : selectByKey st dt o.date with _ | ⟨e, rest⟩
        · simp [fredStep, h1, hp, hsel] at h
        · by_cases hv : e.average = v
          · simp [fredStep, h1, hp, hsel, hv] at h
          · simp [fredStep, h1, hp, hsel, hv, updateRow_rowKey]
  · intro metal st md h
    rcases md with _ | md
    · simp [update_metal_price] at h
    · rcases hsel : selectByKey st metal (metalDate md.timestamp) with _ | ⟨e, rest⟩
      · simp [update_metal_price, hsel] at h
      · simp [update_metal_price, hsel, updateRow_rowKey]

/-- Witness for C10 at concrete revisions on all three paths: the ids,
`data_type` and `date` columns after the update equal those before. -/
theorem c10_witness :
    (blsStep "cpi" cpiStore ⟨"2024", "M05", "311"⟩).store.rows.map rowKey
      = cpiStore.rows.map rowKey ∧
    (fredStep "milk_price" milkStore ⟨"2024-02-01", "33"⟩).store.rows.map rowKey
      = milkStore.rows.map rowKey ∧
    (update_metal_price "gold" goldStore (some goldMD)).store.rows.map rowKey
      = goldStore.rows.map rowKey :=
  ⟨c10_update_preserves_key_fields.1 "cpi" cpiStore ⟨"2024", "M05", "311"⟩ (by decide),
   c10_update_preserves_key_fields.2.1 "milk_price" milkStore ⟨"2024-02-01", "33"⟩
      (by decide),
   c10_update_preserves_key_fields.2.2 "gold" goldStore (some goldMD) (by decide)⟩
